import Mathlib

/-!
Verification of the pinephone keyboard power daemon (src/main.rs).

The daemon arbitrates a shared USB input-current budget between the phone's
main battery and the keyboard battery.  The control core is embedded here as
pure Lean functions:

* `Model.valid_limits`, `Model.limit_step`, ... — the per-variant capability
  tables and the ladder stepping function (`Model::valid_limits`,
  `Model::limit_step`).
* `Ctx.decide` — the decision engine (`Ctx::decide`), returning the chosen
  `Action` together with the updated controller memory.
* `Device.set_online`, `Device.set_limit`, ... — the setpoint writers,
  modelled as functions returning the list of hardware writes they issue.
* `Ctx.step` — one tick (`Ctx::step`, minus the telemetry read and logging):
  decide, offline-recovery check, then execute the action through the
  `Ctx.maybe_step` rate gate, returning all writes issued this tick and the
  new controller memory.

Time is modelled in whole seconds as `Nat`; `Instant::elapsed() > d` becomes
`d < now - t`.  Machine integers are modelled as `Nat`/`Int`; the two places
where 32-bit representation matters (the `u32` subtraction in the low-SoC
branch and the PinePhone current-sign heuristic's `as i32` cast and bitwise
complement) are modelled explicitly (`u32_sub`, `u32_to_i32`, `i32_not`).
-/

namespace Kbpwrd

/-- The hardware variants (`enum Model`). -/
inductive Model where
  | PinePhone
  | PinePhonePro
deriving DecidableEq

namespace Model

/-- Valid values that can be written to input_current_limit
(`Model::valid_limits`). -/
def valid_limits (m : Model) : List Nat :=
  match m with
  | PinePhonePro => [450000, 850000, 1000000, 1250000, 1500000, 2000000]
  | PinePhone => [500000, 900000, 1500000, 2000000]

/-- The default input current limit (`Model::default_limit`). -/
def default_limit (m : Model) : Nat :=
  match m with
  | PinePhonePro => m.valid_limits.getD 0 0
  | PinePhone => m.valid_limits.getD 0 0

/-- The max input current limit (`Model::max_limit`). -/
def max_limit (m : Model) : Nat :=
  match m with
  | PinePhonePro => m.valid_limits.getD 5 0
  | PinePhone => m.valid_limits.getD 3 0

/-- The min input current limit (`Model::min_limit`). -/
def min_limit (m : Model) : Nat := m.valid_limits.getD 0 0

/-- The scan loop of `Model::limit_step`: walk the table with the running
index `i`; on an exact match return the neighbour in the given direction,
clamped at the ends; if the scan falls off the end return `valid[2]`. -/
def limit_step_go (valid : List Nat) (up : Bool) (cur : Nat) : Nat → List Nat → Nat
  | _, [] => valid.getD 2 0
  | i, v :: rest =>
    if v = cur then
      if up then valid.getD (min (valid.length - 1) (i + 1)) 0
      else if i = 0 then valid.getD 0 0
      else valid.getD (i - 1) 0
    else limit_step_go valid up cur (i + 1) rest

/-- Given the current input_current_limit, step one increment up or down and
return the new value (`Model::limit_step`). -/
def limit_step (m : Model) (up : Bool) (cur : Nat) : Nat :=
  limit_step_go m.valid_limits up cur 0 m.valid_limits

end Model

/-- Power-supply status (`enum State`). -/
inductive State where
  | Charging
  | Discharging
  | Full
deriving DecidableEq

/-- Keyboard battery telemetry (`struct KeyboardBattery`). -/
structure KeyboardBattery where
  state : State
  soc : Option Nat
  voltage : Nat
  current : Int
  limit : Nat
  enabled : Bool
deriving DecidableEq

/-- Main battery telemetry (`struct MainBattery`). -/
structure MainBattery where
  state : State
  soc : Nat
  voltage : Nat
  current : Int
  limit : Nat
deriving DecidableEq

/-- One telemetry snapshot (`struct Info`). -/
structure Info where
  kbd : KeyboardBattery
  mb : MainBattery
deriving DecidableEq

/-- The `limit as i32` cast: a `u32` reinterpreted as a two's-complement
32-bit signed integer. -/
def u32_to_i32 (n : Nat) : Int :=
  if n < 2 ^ 31 then (n : Int) else (n : Int) - 2 ^ 32

/-- Arithmetic shift right by `k` bits on a signed value (`>> k` on `i32`),
i.e. floor division by `2 ^ k`. -/
def asr (x : Int) (k : Nat) : Int := Int.fdiv x (2 ^ k)

/-- Bitwise complement of a two's-complement signed integer (`!x` on `i32`):
`!x = -(x + 1)`. -/
def i32_not (x : Int) : Int := -(x + 1)

/-- Reduce an integer to its two's-complement `i32` value (the result of a
wrapping `i32` operation): the unique representative in
`[-2^31, 2^31)` congruent mod `2^32`. -/
def i32_wrap (x : Int) : Int := (x + 2 ^ 31) % 2 ^ 32 - 2 ^ 31

namespace MainBattery

/-- The PinePhone arm of `MainBattery::get`: the kernel reports only
`abs(current)`, so if the reported magnitude exceeds
`limit as i32 + (limit as i32 >> 2)` the true current is assumed to be the
bitwise complement of the reading, otherwise the reading is taken as-is.
The threshold addition is an `i32` addition and wraps (release-mode
semantics), hence the `i32_wrap`. -/
def pp_current (limit : Nat) (current_abs : Int) : Int :=
  if i32_wrap (u32_to_i32 limit + asr (u32_to_i32 limit) 2) < current_abs then
    i32_not current_abs
  else current_abs

end MainBattery

/-- The actions the decision engine can emit (`enum Action`). -/
inductive Action where
  | MaybeStepUp
  | MaybeStepDown
  | MaybePhUpKbDown
  | MaybeStepKbUp
  | SetDefault
  | SetMax
  | Pass
deriving DecidableEq

/-- The controller memory carried across ticks: the fields of `Ctx` other
than the device handle (`kb_charging`, `last_step`, `last_offline`). -/
structure Mem where
  kbCharging : Bool
  lastStep : Nat
  lastOffline : Nat
deriving DecidableEq

/-- The fixed keyboard-side budget constant (`const KBLIM: i32`). -/
def KBLIM : Int := 2300000

/-- One hardware write: to the boost `online` switch, to the phone's
`input_current_limit`, or to the keyboard's `constant_charge_current`. -/
inductive Write where
  | online (desired : Bool)
  | limit (v : Nat)
  | kbLimit (v : Nat)
deriving DecidableEq

namespace Device

/-- `Device::set_online`: write the boost enable flag only when it differs
from the currently known value. -/
def set_online (desired cur : Bool) : List Write :=
  if desired ≠ cur then [Write.online desired] else []

/-- `Device::set_limit`: unconditionally write the phone input-current
limit. -/
def set_limit (l : Nat) : List Write := [Write.limit l]

/-- `Device::set_kb_limit`: unconditionally write the keyboard
constant-charge-current limit (note: no comparison with the current value). -/
def set_kb_limit (l : Nat) : List Write := [Write.kbLimit l]

/-- `Device::set_limit_step`: step the limit and write it only if it
changed. -/
def set_limit_step (m : Model) (up : Bool) (cur : Nat) : List Write :=
  let l := m.limit_step up cur
  if l ≠ cur then set_limit l else []

/-- `Device::set_limit_default`: write the default limit only if the current
value differs. -/
def set_limit_default (m : Model) (cur : Nat) : List Write :=
  if cur ≠ m.default_limit then set_limit m.default_limit else []

/-- `Device::set_limit_max`: write the max limit only if the current value
differs. -/
def set_limit_max (m : Model) (cur : Nat) : List Write :=
  if cur ≠ m.max_limit then set_limit m.max_limit else []

end Device

/-- Wrapping `u32` subtraction (release-mode semantics of `a - b` on `u32`),
for operands below `2 ^ 32`. -/
def u32_sub (a b : Nat) : Nat := (a + 2 ^ 32 - b) % 2 ^ 32

/-- The rate-gate period in seconds (`const STEP: Duration`). -/
def STEP : Nat := 10

/-- The boost offline-recovery threshold in seconds
(`const OFFLINE: Duration` in `Ctx::step`). -/
def OFFLINE : Nat := 20

/-- The voltage hysteresis band in µV (`const VDIF: u32`). -/
def VDIF : Nat := 150000

namespace Ctx

/-- The decision engine (`Ctx::decide`): map the snapshot and the controller
memory to an action, together with the updated memory (the `kb_charging`
mutations). -/
def decide (m : Model) (mem : Mem) (info : Info) : Action × Mem :=
  match info.kbd.state with
  | State.Charging =>
    if mem.kbCharging = false then (Action.SetDefault, { mem with kbCharging := true })
    else
      let lim : Int := KBLIM + asr KBLIM 4
      let ka : Int := info.kbd.current
      let tot : Int := ka + (info.mb.limit : Int)
      let nextl : Int := (m.limit_step true info.mb.limit : Int)
      if ka + nextl < lim ∧ info.mb.current < 0 then (Action.MaybeStepUp, mem)
      else if info.mb.current < 0 then (Action.MaybePhUpKbDown, mem)
      else if lim ≤ tot then (Action.MaybeStepDown, mem)
      else if tot < KBLIM then (Action.MaybeStepKbUp, mem)
      else (Action.Pass, mem)
  | State.Full =>
    if info.kbd.enabled = true ∧ mem.kbCharging = true then (Action.SetMax, mem)
    else (Action.SetDefault, mem)
  | State.Discharging =>
    if mem.kbCharging = true then (Action.SetDefault, { mem with kbCharging := false })
    else
      match info.mb.state with
      | State.Full => (Action.SetDefault, mem)
      | State.Charging =>
        if 30 < info.mb.soc then (Action.MaybeStepDown, mem)
        else
          let delta := u32_sub info.mb.limit (m.limit_step false info.mb.limit)
          if 0 < info.mb.current ∧ delta < info.mb.current.toNat then
            (Action.MaybeStepDown, mem)
          else (Action.Pass, mem)
      | State.Discharging =>
        if 30 < info.mb.soc then
          let mbv := info.mb.voltage
          let kbv := info.kbd.voltage
          let mbc := info.mb.current.natAbs
          let kbc := info.kbd.current.natAbs
          if kbv < mbv ∧ VDIF < mbv - kbv then (Action.MaybeStepDown, mem)
          else if (kbv ≤ mbv ∧ mbv - kbv < VDIF) ∨ (mbv ≤ kbv ∧ kbv - mbv < VDIF) then
            (Action.Pass, mem)
          else if kbc < mbc then (Action.MaybeStepUp, mem)
          else (Action.Pass, mem)
        else (Action.MaybeStepUp, mem)

/-- The rate gate (`Ctx::maybe_step`): run the rate-limited body `f` only if
more than `STEP` seconds have elapsed since `lastStep`; on execution the gate
timestamp is reset to `now` before `f` runs (so `f` sees the reset memory). -/
def maybe_step (now : Nat) (mem : Mem) (f : Mem → List Write × Mem) : List Write × Mem :=
  if STEP < now - mem.lastStep then f { mem with lastStep := now } else ([], mem)

/-- `Ctx::step_up`: if the boost is offline re-enable it, otherwise step the
phone input-current limit up one rung. -/
def step_up (m : Model) (info : Info) : List Write :=
  if info.kbd.enabled = false then Device.set_online true info.kbd.enabled
  else Device.set_limit_step m true info.mb.limit

/-- `Ctx::step_down`: at the table minimum switch the boost off (recording
`last_offline`), otherwise step the phone input-current limit down one
rung. -/
def step_down (m : Model) (now : Nat) (mem : Mem) (info : Info) : List Write × Mem :=
  if info.mb.limit = m.min_limit then
    (Device.set_online false info.kbd.enabled, { mem with lastOffline := now })
  else (Device.set_limit_step m false info.mb.limit, mem)

/-- The body of the `MaybePhUpKbDown` arm of `Ctx::step`: re-enable the
boost, set the keyboard charge limit to `KBLIM - limit_step(up, mb.limit)`,
then step the phone input-current limit up. -/
def exec_ph_up_kb_down (m : Model) (info : Info) : List Write :=
  Device.set_online true info.kbd.enabled ++
    Device.set_kb_limit (KBLIM.toNat - m.limit_step true info.mb.limit) ++
    Device.set_limit_step m true info.mb.limit

/-- The body of the `MaybeStepKbUp` arm of `Ctx::step`: re-enable the boost;
if the keyboard charge limit is below `KBLIM`, raise it by 100 mA capped at
`KBLIM`. -/
def exec_step_kb_up (info : Info) : List Write :=
  Device.set_online true info.kbd.enabled ++
    (if info.kbd.limit < KBLIM.toNat then
      Device.set_kb_limit (min (info.kbd.limit + 100000) KBLIM.toNat)
    else [])

/-- The `SetDefault` arm of `Ctx::step`: re-enable the boost, reset the phone
limit to the table default, and set the keyboard charge limit to
`KBLIM - default_limit` (the last write is unconditional). -/
def exec_set_default (m : Model) (info : Info) : List Write :=
  Device.set_online true info.kbd.enabled ++
    Device.set_limit_default m info.mb.limit ++
    Device.set_kb_limit (KBLIM.toNat - m.default_limit)

/-- The `SetMax` arm of `Ctx::step`: re-enable the boost, raise the phone
limit to the table max, and set the keyboard charge limit to
`KBLIM - default_limit`. -/
def exec_set_max (m : Model) (info : Info) : List Write :=
  Device.set_online true info.kbd.enabled ++
    Device.set_limit_max m info.mb.limit ++
    Device.set_kb_limit (KBLIM.toNat - m.default_limit)

/-- One tick (`Ctx::step`, minus the telemetry read and the log line):
decide, then the unconditional offline-recovery check (if the boost has been
off for more than `OFFLINE` seconds, reset the gate and force it back
online), then dispatch the action; `SetDefault`/`SetMax` bypass the gate and
reset it, `Maybe*` actions go through `maybe_step`.  Returns the writes
issued this tick, in order, and the new controller memory. -/
def step (m : Model) (now : Nat) (mem0 : Mem) (info : Info) : List Write × Mem :=
  let ad := decide m mem0 info
  let r0 : List Write × Mem :=
    if info.kbd.enabled = false ∧ OFFLINE < now - ad.2.lastOffline then
      (Device.set_online true info.kbd.enabled, { ad.2 with lastStep := now })
    else ([], ad.2)
  let aw : List Write × Mem :=
    match ad.1 with
    | Action.Pass => ([], r0.2)
    | Action.MaybeStepUp => maybe_step now r0.2 (fun mem => (step_up m info, mem))
    | Action.MaybePhUpKbDown => maybe_step now r0.2 (fun mem => (exec_ph_up_kb_down m info, mem))
    | Action.MaybeStepKbUp => maybe_step now r0.2 (fun mem => (exec_step_kb_up info, mem))
    | Action.MaybeStepDown => maybe_step now r0.2 (fun mem => step_down m now mem info)
    | Action.SetDefault => (exec_set_default m info, { r0.2 with lastStep := now })
    | Action.SetMax => (exec_set_max m info, { r0.2 with lastStep := now })
  (r0.1 ++ aw.1, aw.2)

end Ctx

/-! Concrete snapshots and memories used to witness and refute claims. -/

/-- Snapshot for the `SetDefault` idempotency scenario: keyboard `Full` with
the boost enabled, phone limit already at the PinePhone table default. -/
def info_full : Info :=
  { kbd := { state := State.Full, soc := some 100, voltage := 4000000, current := 0,
             limit := 1800000, enabled := true },
    mb := { state := State.Full, soc := 80, voltage := 4200000, current := 0,
            limit := 500000 } }

/-- Snapshot driving the `MaybePhUpKbDown` branch: keyboard charging hard
(`ka + nextl ≥ ceiling`) while the main battery is net discharging. -/
def info_kbprio : Info :=
  { kbd := { state := State.Charging, soc := some 50, voltage := 3600000, current := 1600000,
             limit := 1800000, enabled := true },
    mb := { state := State.Discharging, soc := 50, voltage := 3700000, current := -100000,
            limit := 500000 } }

/-- Snapshot driving the `MaybeStepUp` branch of the charging dispatch:
`ka + nextl < ceiling` and the main battery is net discharging. -/
def info_stepup : Info :=
  { kbd := { state := State.Charging, soc := some 50, voltage := 3600000, current := 1000000,
             limit := 1800000, enabled := true },
    mb := { state := State.Discharging, soc := 50, voltage := 3700000, current := -100000,
            limit := 500000 } }

/-- Snapshot that also decides `MaybeStepUp` (small keyboard current, main
battery net discharging) but with the phone limit already at the PinePhone
table maximum, so the step-up body's limit write is a no-op. -/
def info_stepup_max : Info :=
  { kbd := { state := State.Charging, soc := some 50, voltage := 3600000, current := 100000,
             limit := 1800000, enabled := true },
    mb := { state := State.Discharging, soc := 50, voltage := 3700000, current := -100000,
            limit := 2000000 } }

/-- Snapshot with the boost converter switched off (keyboard discharging,
main battery full). -/
def info_offline : Info :=
  { kbd := { state := State.Discharging, soc := some 40, voltage := 3500000, current := -200000,
             limit := 1800000, enabled := false },
    mb := { state := State.Full, soc := 80, voltage := 4200000, current := 0,
            limit := 500000 } }

/-- Controller memory with no active keyboard-charge session, both timers at
0. -/
def mem_idle : Mem := { kbCharging := false, lastStep := 0, lastOffline := 0 }

/-- Controller memory with an active keyboard-charge session, both timers at
0. -/
def mem_session : Mem := { kbCharging := true, lastStep := 0, lastOffline := 0 }

/-! Helper lemmas. -/

/-- If no element of the remaining list matches, the `limit_step` scan falls
through to the fallback entry `valid[2]`. -/
theorem Model.limit_step_go_of_not_mem (valid : List Nat) (up : Bool) (cur : Nat)
    (i : Nat) (l : List Nat) :
    (∀ x ∈ l, x ≠ cur) → Model.limit_step_go valid up cur i l = valid.getD 2 0 := by
  induction l generalizing i with
  | nil => intro _; rfl
  | cons v rest ih =>
    intro h
    rw [Model.limit_step_go, if_neg (h v (List.mem_cons_self v rest))]
    exact ih (i + 1) (fun x hx => h x (List.mem_cons_of_mem v hx))

/-- `limit_step` always lands on an entry of the variant's capability
table. -/
theorem Model.limit_step_mem (m : Model) (up : Bool) (cur : Nat) :
    Model.limit_step m up cur ∈ Model.valid_limits m := by
  by_cases hmem : cur ∈ Model.valid_limits m
  · cases m with
    | PinePhone =>
      simp only [Model.valid_limits, List.mem_cons, List.not_mem_nil, or_false] at hmem
      rcases hmem with rfl | rfl | rfl | rfl <;> cases up <;> decide
    | PinePhonePro =>
      simp only [Model.valid_limits, List.mem_cons, List.not_mem_nil, or_false] at hmem
      rcases hmem with rfl | rfl | rfl | rfl | rfl | rfl <;> cases up <;> decide
  · rw [Model.limit_step,
      Model.limit_step_go_of_not_mem _ _ _ _ _ (fun x hx hxc => hmem (by rw [← hxc]; exact hx))]
    cases m <;> decide

/-- Stepping up from a table entry that is not the table maximum is strictly
increasing. -/
theorem Model.limit_step_up_strict (m : Model) (x : Nat)
    (hx : x ∈ Model.valid_limits m) (hmax : x ≠ m.max_limit) :
    x < Model.limit_step m true x := by
  cases m with
  | PinePhone =>
    simp only [Model.valid_limits, List.mem_cons, List.not_mem_nil, or_false] at hx
    rcases hx with rfl | rfl | rfl | rfl <;>
      first
      | exact absurd (by decide) hmax
      | decide
  | PinePhonePro =>
    simp only [Model.valid_limits, List.mem_cons, List.not_mem_nil, or_false] at hx
    rcases hx with rfl | rfl | rfl | rfl | rfl | rfl <;>
      first
      | exact absurd (by decide) hmax
      | decide

/-- Every capability-table entry is below the fixed keyboard budget
`KBLIM`. -/
theorem Model.valid_le_kblim (m : Model) (x : Nat) (hx : x ∈ Model.valid_limits m) :
    x ≤ KBLIM.toNat := by
  cases m with
  | PinePhone =>
    simp only [Model.valid_limits, List.mem_cons, List.not_mem_nil, or_false] at hx
    rcases hx with rfl | rfl | rfl | rfl <;> decide
  | PinePhonePro =>
    simp only [Model.valid_limits, List.mem_cons, List.not_mem_nil, or_false] at hx
    rcases hx with rfl | rfl | rfl | rfl | rfl | rfl <;> decide

/-- `Ctx.decide` never touches the two timers: it only ever updates the
`kbCharging` flag. -/
theorem Ctx.decide_timers (m : Model) (mem : Mem) (info : Info) :
    (Ctx.decide m mem info).2.lastStep = mem.lastStep ∧
    (Ctx.decide m mem info).2.lastOffline = mem.lastOffline := by
  obtain ⟨⟨ks, ksoc, kv, kc, kl, ke⟩, ⟨ms, msoc, mv, mc, ml⟩⟩ := info
  unfold Ctx.decide
  cases ks <;> cases ms <;> dsimp only <;> split_ifs <;> simp

/-- `Ctx.decide` returns the memory unchanged except on the session-flag
transitions, and those always emit `SetDefault`. -/
theorem Ctx.decide_snd (m : Model) (mem : Mem) (info : Info) :
    (Ctx.decide m mem info).2 = mem ∨ (Ctx.decide m mem info).1 = Action.SetDefault := by
  obtain ⟨⟨ks, ksoc, kv, kc, kl, ke⟩, ⟨ms, msoc, mv, mc, ml⟩⟩ := info
  unfold Ctx.decide
  cases ks <;> cases ms <;> dsimp only <;> split_ifs <;> simp

/-- The action chosen by `Ctx.decide` does not depend on the two timers, only
on the `kbCharging` flag and the snapshot. -/
theorem Ctx.decide_fst_timers (m : Model) (kb : Bool) (ls lo ls' lo' : Nat) (info : Info) :
    (Ctx.decide m ⟨kb, ls, lo⟩ info).1 = (Ctx.decide m ⟨kb, ls', lo'⟩ info).1 := by
  obtain ⟨⟨ks, ksoc, kv, kc, kl, ke⟩, ⟨ms, msoc, mv, mc, ml⟩⟩ := info
  unfold Ctx.decide
  cases ks <;> cases ms <;> dsimp only <;> split_ifs <;> rfl

/-- On a tick whose decision is `MaybeStepUp` with the boost enabled, the
whole tick reduces to the rate gate applied to the program's step-up body:
the offline-recovery check is skipped and the memory is only touched by the
gate. -/
theorem Ctx.step_of_stepup (m : Model) (now : Nat) (mem : Mem) (info : Info)
    (hup : (Ctx.decide m mem info).1 = Action.MaybeStepUp)
    (hen : info.kbd.enabled = true) :
    Ctx.step m now mem info =
      Ctx.maybe_step now mem (fun s => (Ctx.step_up m info, s)) := by
  have hsnd : (Ctx.decide m mem info).2 = mem := by
    rcases Ctx.decide_snd m mem info with h | h
    · exact h
    · rw [hup] at h
      exact absurd h (by decide)
  simp only [Ctx.step, hsnd, hup, hen]
  simp

/-! ## C7 — stepping on the capability tables -/

/-- C7 counterexample: the claim quantifies over every unsigned current `x`,
but for `x = 2500000` on the PinePhone table (a value matching no table
entry, and not equal to either end of the table) the scan falls through to
the fallback entry `valid[2] = 1500000`, so `step(up, x) < x` (monotonicity
fails) and `step(up, step(down, x)) ≠ x` (the round trip fails). -/
theorem C7_cex :
    2500000 ∉ Model.valid_limits Model.PinePhone ∧
    2500000 ≠ (Model.valid_limits Model.PinePhone).getD 0 0 ∧
    2500000 ≠
      (Model.valid_limits Model.PinePhone).getD
        ((Model.valid_limits Model.PinePhone).length - 1) 0 ∧
    Model.limit_step Model.PinePhone true 2500000 < 2500000 ∧
    Model.limit_step Model.PinePhone true (Model.limit_step Model.PinePhone false 2500000) ≠
      2500000 := by
  decide

/-- C7 (amended): restricted to values `x` that are entries of the variant's
capability table, stepping is monotonic (`step(up, x) ≥ x`,
`step(down, x) ≤ x`), and `step(up, step(down, x)) = x` whenever `x` is not
at an end of the table. -/
theorem C7_amended (m : Model) (x : Nat) (hx : x ∈ Model.valid_limits m) :
    x ≤ Model.limit_step m true x ∧ Model.limit_step m false x ≤ x ∧
    ((x ≠ (Model.valid_limits m).getD 0 0 ∧
      x ≠ (Model.valid_limits m).getD ((Model.valid_limits m).length - 1) 0) →
      Model.limit_step m true (Model.limit_step m false x) = x) := by
  cases m with
  | PinePhone =>
    simp only [Model.valid_limits, List.mem_cons, List.not_mem_nil, or_false] at hx
    rcases hx with rfl | rfl | rfl | rfl <;> decide
  | PinePhonePro =>
    simp only [Model.valid_limits, List.mem_cons, List.not_mem_nil, or_false] at hx
    rcases hx with rfl | rfl | rfl | rfl | rfl | rfl <;> decide

/-- C7 witness: the amended claim at the PinePhone entry `900000`. -/
theorem C7_witness :
    900000 ≤ Model.limit_step Model.PinePhone true 900000 ∧
    Model.limit_step Model.PinePhone false 900000 ≤ 900000 ∧
    ((900000 ≠ (Model.valid_limits Model.PinePhone).getD 0 0 ∧
      900000 ≠
        (Model.valid_limits Model.PinePhone).getD
          ((Model.valid_limits Model.PinePhone).length - 1) 0) →
      Model.limit_step Model.PinePhone true (Model.limit_step Model.PinePhone false 900000) =
        900000) :=
  C7_amended Model.PinePhone 900000 (by decide)

/-! ## C9 — totality of `limit_step` -/

/-- C9: for both variants, every direction and every unsigned current, the
capability table has at least 3 entries (so the no-match fallback index 2
exists) and `limit_step` always returns an entry of the table. -/
theorem C9_total (m : Model) (up : Bool) (cur : Nat) :
    3 ≤ (Model.valid_limits m).length ∧
    Model.limit_step m up cur ∈ Model.valid_limits m :=
  ⟨by cases m <;> decide, Model.limit_step_mem m up cur⟩

/-! ## C10 — the low-SoC `delta` subtraction -/

/-- C10: whenever the phone input limit is an entry of the variant's table,
`step(down, limit) ≤ limit`, so the `u32` subtraction
`delta = limit - step(down, limit)` in the low-SoC branch does not wrap;
and the table-membership precondition is required: `1000000` matches no
PinePhone entry and its fallback step-down `valid[2] = 1500000` exceeds it. -/
theorem C10_delta_no_underflow (m : Model) :
    (∀ x ∈ Model.valid_limits m,
      Model.limit_step m false x ≤ x ∧
        u32_sub x (Model.limit_step m false x) = x - Model.limit_step m false x) ∧
    (1000000 ∉ Model.valid_limits Model.PinePhone ∧
      1000000 < Model.limit_step Model.PinePhone false 1000000) := by
  refine ⟨fun x hx => ?_, by decide⟩
  cases m with
  | PinePhone =>
    simp only [Model.valid_limits, List.mem_cons, List.not_mem_nil, or_false] at hx
    rcases hx with rfl | rfl | rfl | rfl <;> decide
  | PinePhonePro =>
    simp only [Model.valid_limits, List.mem_cons, List.not_mem_nil, or_false] at hx
    rcases hx with rfl | rfl | rfl | rfl | rfl | rfl <;> decide

/-- C10 witness: the no-wrap property at the PinePhone entry `900000`. -/
theorem C10_witness :
    Model.limit_step Model.PinePhone false 900000 ≤ 900000 ∧
    u32_sub 900000 (Model.limit_step Model.PinePhone false 900000) =
      900000 - Model.limit_step Model.PinePhone false 900000 :=
  (C10_delta_no_underflow Model.PinePhone).1 900000 (by decide)

/-! ## C6 — the PinePhone current-sign heuristic -/

/-- C6 counterexample: the claim quantifies over every magnitude and limit,
but the threshold `(limit as i32) + (limit as i32 >> 2)` is an `i32`
addition and wraps.  At limit `L = 1800000000` (a representable `u32`, and
`L < 2^31` so the cast alone does not flip the sign) and reading
`m = 2000000000 ≤ L + L/4 = 2250000000`, the claim says the inferred current
equals `m`, but the program's wrapped threshold is
`2250000000 - 2^32 = -2044967296 < m`, so it returns the complement
`!m = -2000000001` instead. -/
theorem C6_cex :
    (1800000000 : Nat) < 2 ^ 31 ∧
    (0 : Int) ≤ 2000000000 ∧
    (2000000000 : Int) ≤ (1800000000 : Int) + ((1800000000 / 4 : Nat) : Int) ∧
    MainBattery.pp_current 1800000000 2000000000 ≠ 2000000000 ∧
    MainBattery.pp_current 1800000000 2000000000 = i32_not 2000000000 := by
  decide

/-- C6 (amended): for the PinePhone variant, for every current-magnitude
reading `m ≥ 0` and every input-current limit `L` whose `i32` threshold
computation does not overflow (`L + L/4 < 2^31`, which covers every limit
the hardware accepts): if `m` exceeds `L + L/4` the inferred current is the
bitwise complement `-(m + 1)` of the reading, which is negative; otherwise
the inferred current equals `m`. -/
theorem C6_amended (L : Nat) (mAbs : Int) (hL : L + L / 4 < 2 ^ 31) (hm : 0 ≤ mAbs) :
    ((L : Int) + ((L / 4 : Nat) : Int) < mAbs →
      MainBattery.pp_current L mAbs = -(mAbs + 1) ∧ MainBattery.pp_current L mAbs < 0) ∧
    (mAbs ≤ (L : Int) + ((L / 4 : Nat) : Int) → MainBattery.pp_current L mAbs = mAbs) := by
  have hL31 : L < 2 ^ 31 := by omega
  have hcast : u32_to_i32 L = (L : Int) := by rw [u32_to_i32, if_pos hL31]
  have hasr : asr (L : Int) 2 = ((L / 4 : Nat) : Int) := by
    rw [asr]
    norm_num
    exact (Int.ofNat_fdiv L 4).symm
  have hwrap : i32_wrap ((L : Int) + ((L / 4 : Nat) : Int)) =
      (L : Int) + ((L / 4 : Nat) : Int) := by
    rw [i32_wrap, Int.emod_eq_of_lt (by omega) (by omega)]
    ring
  unfold MainBattery.pp_current
  rw [hcast, hasr, hwrap]
  constructor
  · intro h
    rw [if_pos h, i32_not]
    exact ⟨rfl, by omega⟩
  · intro h
    rw [if_neg (not_lt.mpr h)]

/-- C6 witness: magnitude 2600000 µA with limit 2000000 µA
(`2000000 + 2000000/4 = 2500000 < 2600000`, no overflow) yields the bitwise
complement `-2600001`, a negative inferred current. -/
theorem C6_witness :
    MainBattery.pp_current 2000000 2600000 = -(2600000 + 1) ∧
    MainBattery.pp_current 2000000 2600000 < 0 :=
  (C6_amended 2000000 2600000 (by decide) (by decide)).1 (by decide)

/-! ## C8 — first tick of a charging session -/

/-- C8: whenever the keyboard reports `Charging` and no session is active
(`kbCharging = false`), the decision engine emits `SetDefault` and records
the session start (`kbCharging` becomes `true`, the timers are untouched). -/
theorem C8_session_start (m : Model) (mem : Mem) (info : Info)
    (hs : info.kbd.state = State.Charging) (hc : mem.kbCharging = false) :
    Ctx.decide m mem info = (Action.SetDefault, { mem with kbCharging := true }) := by
  obtain ⟨⟨ks, ksoc, kv, kc, kl, ke⟩, ⟨ms, msoc, mv, mc, ml⟩⟩ := info
  obtain ⟨kb, ls, lo⟩ := mem
  subst hs
  subst hc
  simp [Ctx.decide]

/-- C8 witness: a keyboard `Discharging` → `Charging` transition seen with
`kbCharging = false` yields `SetDefault` and flips the flag. -/
theorem C8_witness :
    Ctx.decide Model.PinePhone mem_idle info_stepup =
      (Action.SetDefault, { mem_idle with kbCharging := true }) :=
  C8_session_start Model.PinePhone mem_idle info_stepup rfl rfl

/-! ## C5 — the charging sub-dispatch is exclusive and exhaustive -/

/-- C5: with the keyboard `Charging` and a session already active, the
decision is exactly one of `MaybeStepUp`, `MaybePhUpKbDown`, `MaybeStepDown`,
`MaybeStepKbUp`, `Pass`; moreover `MaybeStepUp` is only emitted when the main
battery is net discharging and `MaybeStepDown` only when it is not and
`netTotal ≥ ceiling` (with `ceiling = KBLIM + KBLIM/16`), so the two can
never be emitted for the same `(netTotal, ceiling)` pair. -/
theorem C5_charging_exclusive (m : Model) (mem : Mem) (info : Info)
    (hs : info.kbd.state = State.Charging) (hc : mem.kbCharging = true) :
    ((Ctx.decide m mem info).1 = Action.MaybeStepUp ∨
     (Ctx.decide m mem info).1 = Action.MaybePhUpKbDown ∨
     (Ctx.decide m mem info).1 = Action.MaybeStepDown ∨
     (Ctx.decide m mem info).1 = Action.MaybeStepKbUp ∨
     (Ctx.decide m mem info).1 = Action.Pass) ∧
    ((Ctx.decide m mem info).1 = Action.MaybeStepUp → info.mb.current < 0) ∧
    ((Ctx.decide m mem info).1 = Action.MaybeStepDown →
      0 ≤ info.mb.current ∧
      KBLIM + asr KBLIM 4 ≤ info.kbd.current + (info.mb.limit : Int)) := by
  obtain ⟨⟨ks, ksoc, kv, kc, kl, ke⟩, ⟨ms, msoc, mv, mc, ml⟩⟩ := info
  obtain ⟨kb, ls, lo⟩ := mem
  subst hs
  subst hc
  simp only [Ctx.decide]
  split_ifs with h1 h2 h3 h4 <;> simp_all

/-- C5 witness: the exclusivity statement at a concrete charging snapshot
(which decides `MaybeStepUp`). -/
theorem C5_witness :
    ((Ctx.decide Model.PinePhone mem_session info_stepup).1 = Action.MaybeStepUp ∨
     (Ctx.decide Model.PinePhone mem_session info_stepup).1 = Action.MaybePhUpKbDown ∨
     (Ctx.decide Model.PinePhone mem_session info_stepup).1 = Action.MaybeStepDown ∨
     (Ctx.decide Model.PinePhone mem_session info_stepup).1 = Action.MaybeStepKbUp ∨
     (Ctx.decide Model.PinePhone mem_session info_stepup).1 = Action.Pass) ∧
    ((Ctx.decide Model.PinePhone mem_session info_stepup).1 = Action.MaybeStepUp →
      info_stepup.mb.current < 0) ∧
    ((Ctx.decide Model.PinePhone mem_session info_stepup).1 = Action.MaybeStepDown →
      0 ≤ info_stepup.mb.current ∧
      KBLIM + asr KBLIM 4 ≤ info_stepup.kbd.current + (info_stepup.mb.limit : Int)) :=
  C5_charging_exclusive Model.PinePhone mem_session info_stepup rfl rfl

/-! ## Rate-gate helper lemmas -/

/-- When more than `STEP` seconds have elapsed, the gate fires: the timestamp
is reset to `now` and the body runs on the reset memory. -/
theorem Ctx.maybe_step_fires (now : Nat) (mem : Mem) (f : Mem → List Write × Mem)
    (h : STEP < now - mem.lastStep) :
    Ctx.maybe_step now mem f = f { mem with lastStep := now } := by
  unfold Ctx.maybe_step
  rw [if_pos h]

/-- When at most `STEP` seconds have elapsed, the gate blocks: no writes and
no memory change. -/
theorem Ctx.maybe_step_blocked (now : Nat) (mem : Mem) (f : Mem → List Write × Mem)
    (h : ¬STEP < now - mem.lastStep) :
    Ctx.maybe_step now mem f = ([], mem) := by
  unfold Ctx.maybe_step
  rw [if_neg h]

/-! ## C1 — `SetDefault` idempotency -/

/-- C1 counterexample: keyboard `Full` with boost enabled and the phone limit
already at the table default decides `SetDefault` on two successive ticks
over the unchanged snapshot, and the SECOND execution still issues a hardware
write: the keyboard charge-current-limit write in `Device::set_kb_limit` is
unconditional (it never compares against the currently-known value), so
"hardware writes only on the first execution" is false. -/
theorem C1_cex :
    (Ctx.decide Model.PinePhone mem_idle info_full).1 = Action.SetDefault ∧
    (Ctx.decide Model.PinePhone (Ctx.step Model.PinePhone 100 mem_idle info_full).2
        info_full).1 = Action.SetDefault ∧
    (Ctx.step Model.PinePhone 101 (Ctx.step Model.PinePhone 100 mem_idle info_full).2
        info_full).1 = [Write.kbLimit 1800000] ∧
    (Ctx.step Model.PinePhone 101 (Ctx.step Model.PinePhone 100 mem_idle info_full).2
        info_full).1 ≠ [] := by
  decide

/-- C1 (amended): the main input-limit and boost-enable writes of
`SetDefault` do compare against the currently-known value and are skipped
when equal, but the keyboard charge-current-limit write is unconditional:
executing `SetDefault` twice on an unchanged snapshot that is already at
target (boost on, phone limit at the default) issues exactly the keyboard
charge-limit write on BOTH executions and nothing else. -/
theorem C1_amended (m : Model) (now1 now2 : Nat) (mem : Mem) (info : Info)
    (hs : info.kbd.state = State.Full) (hen : info.kbd.enabled = true)
    (hc : mem.kbCharging = false) (hl : info.mb.limit = m.default_limit) :
    (Ctx.step m now1 mem info).1 = [Write.kbLimit (KBLIM.toNat - m.default_limit)] ∧
    (Ctx.step m now2 (Ctx.step m now1 mem info).2 info).1 =
      [Write.kbLimit (KBLIM.toNat - m.default_limit)] := by
  obtain ⟨⟨ks, ksoc, kv, kc, kl, ke⟩, ⟨ms, msoc, mv, mc, ml⟩⟩ := info
  obtain ⟨kb, ls, lo⟩ := mem
  subst hs
  subst hen
  subst hc
  subst hl
  simp [Ctx.step, Ctx.decide, Ctx.exec_set_default, Device.set_online,
    Device.set_limit_default, Device.set_kb_limit]

/-- C1 witness: the amended claim on the concrete `Full`/at-default
snapshot. -/
theorem C1_witness :
    (Ctx.step Model.PinePhone 100 mem_idle info_full).1 =
      [Write.kbLimit (KBLIM.toNat - Model.default_limit Model.PinePhone)] ∧
    (Ctx.step Model.PinePhone 101 (Ctx.step Model.PinePhone 100 mem_idle info_full).2
        info_full).1 =
      [Write.kbLimit (KBLIM.toNat - Model.default_limit Model.PinePhone)] :=
  C1_amended Model.PinePhone 100 101 mem_idle info_full rfl rfl rfl (by decide)

/-! ## C2 — what `MaybePhUpKbDown` actually does -/

/-- C2 counterexample: on a snapshot that decides `MaybePhUpKbDown`
(keyboard charging, main battery net discharging, next rung would breach the
ceiling), the executed writes LOWER the keyboard's own charge limit (from
1800000 to `KBLIM - 900000 = 1400000`) and RAISE the main input limit (from
500000 to 900000) — the opposite of "raises the keyboard's own charge-current
limit while capping the main input limit". -/
theorem C2_cex :
    (Ctx.decide Model.PinePhone mem_session info_kbprio).1 = Action.MaybePhUpKbDown ∧
    (Ctx.step Model.PinePhone 100 mem_session info_kbprio).1 =
      [Write.kbLimit 1400000, Write.limit 900000] ∧
    1400000 < info_kbprio.kbd.limit ∧
    info_kbprio.mb.limit < 900000 := by
  decide

/-- C2 (amended): when `MaybePhUpKbDown` executes (boost already on, phone
limit a non-maximal table entry), it steps the MAIN input limit up one rung
and sets the keyboard's own charge limit to `KBLIM - (stepped-up limit)`,
i.e. it shifts budget toward the main input and away from the keyboard's own
charge limit. -/
theorem C2_amended (m : Model) (info : Info)
    (hmem : info.mb.limit ∈ Model.valid_limits m) (hmax : info.mb.limit ≠ m.max_limit)
    (hen : info.kbd.enabled = true) :
    Ctx.exec_ph_up_kb_down m info =
      [Write.kbLimit (KBLIM.toNat - m.limit_step true info.mb.limit),
       Write.limit (m.limit_step true info.mb.limit)] ∧
    info.mb.limit < m.limit_step true info.mb.limit ∧
    KBLIM.toNat - m.limit_step true info.mb.limit < KBLIM.toNat - info.mb.limit := by
  have hlt : info.mb.limit < m.limit_step true info.mb.limit :=
    Model.limit_step_up_strict m info.mb.limit hmem hmax
  have hub : m.limit_step true info.mb.limit ≤ KBLIM.toNat :=
    Model.valid_le_kblim m _ (Model.limit_step_mem m true info.mb.limit)
  refine ⟨?_, hlt, by omega⟩
  unfold Ctx.exec_ph_up_kb_down
  rw [hen]
  simp [Device.set_online, Device.set_kb_limit, Device.set_limit_step, Device.set_limit,
    Nat.ne_of_gt hlt]

/-- C2 witness: the amended claim at the concrete `MaybePhUpKbDown`
snapshot. -/
theorem C2_witness :
    Ctx.exec_ph_up_kb_down Model.PinePhone info_kbprio =
      [Write.kbLimit (KBLIM.toNat - Model.limit_step Model.PinePhone true info_kbprio.mb.limit),
       Write.limit (Model.limit_step Model.PinePhone true info_kbprio.mb.limit)] ∧
    info_kbprio.mb.limit < Model.limit_step Model.PinePhone true info_kbprio.mb.limit ∧
    KBLIM.toNat - Model.limit_step Model.PinePhone true info_kbprio.mb.limit <
      KBLIM.toNat - info_kbprio.mb.limit :=
  C2_amended Model.PinePhone info_kbprio (by decide) (by decide) rfl

/-! ## C3 — the rate gate -/

/-- C3 counterexample: "exactly one executed write" fails in two ways.
First, with the gate last reset at time 0 (a rate-limited action executed
then), two consecutive `MaybeStepUp` decisions at t = 5 s and t = 9 s (4 s
apart, i.e. less than 10 s) result in ZERO executed writes: the gate blocks
both.  Second, even a gate-open `MaybeStepUp` (t = 11 s, boost enabled) can
issue zero writes: with the phone limit already at the table maximum,
`limit_step(up, 2000000) = 2000000` and `set_limit_step` is a no-op. -/
theorem C3_cex :
    (Ctx.decide Model.PinePhone mem_session info_stepup).1 = Action.MaybeStepUp ∧
    (Ctx.step Model.PinePhone 5 mem_session info_stepup).1 = [] ∧
    (Ctx.decide Model.PinePhone (Ctx.step Model.PinePhone 5 mem_session info_stepup).2
        info_stepup).1 = Action.MaybeStepUp ∧
    (Ctx.step Model.PinePhone 9 (Ctx.step Model.PinePhone 5 mem_session info_stepup).2
        info_stepup).1 = [] ∧
    (Ctx.decide Model.PinePhone mem_session info_stepup_max).1 = Action.MaybeStepUp ∧
    STEP < 11 - mem_session.lastStep ∧
    (Ctx.step Model.PinePhone 11 mem_session info_stepup_max).1 = [] := by
  decide

/-- C3 (amended): on a tick whose decision is `MaybeStepUp` (boost enabled),
the action's side effects run only if MORE than 10 seconds have elapsed
since the gate timestamp; when they run, the gate has already been reset to
`now` and the tick is exactly the program's step-up body on the reset
memory.  For two consecutive `MaybeStepUp` decisions less than 10 seconds
apart, AT MOST one of the two ticks issues writes; when the gate is open at
the first decision, the second tick is blocked and issues none (the first
runs `step_up`, whose single limit write may itself be a no-op when the
limit is already at the top rung). -/
theorem C3_amended (m : Model) (t1 t2 : Nat) (mem : Mem) (info : Info)
    (hup : (Ctx.decide m mem info).1 = Action.MaybeStepUp)
    (hen : info.kbd.enabled = true) (hlt : t2 - t1 < 10) :
    ((Ctx.step m t1 mem info).1 ≠ [] → STEP < t1 - mem.lastStep) ∧
    (STEP < t1 - mem.lastStep →
      Ctx.step m t1 mem info = (Ctx.step_up m info, { mem with lastStep := t1 })) ∧
    (Ctx.decide m (Ctx.step m t1 mem info).2 info).1 = Action.MaybeStepUp ∧
    ¬((Ctx.step m t1 mem info).1 ≠ [] ∧
      (Ctx.step m t2 (Ctx.step m t1 mem info).2 info).1 ≠ []) ∧
    (STEP < t1 - mem.lastStep →
      (Ctx.step m t2 (Ctx.step m t1 mem info).2 info).1 = []) := by
  have h1 := Ctx.step_of_stepup m t1 mem info hup hen
  by_cases hg : STEP < t1 - mem.lastStep
  · have e1 : Ctx.step m t1 mem info = (Ctx.step_up m info, { mem with lastStep := t1 }) := by
      rw [h1, Ctx.maybe_step_fires _ _ _ hg]
    have hup2 : (Ctx.decide m { mem with lastStep := t1 } info).1 = Action.MaybeStepUp := by
      obtain ⟨kb, ls, lo⟩ := mem
      exact (Ctx.decide_fst_timers m kb t1 lo ls lo info).trans hup
    have e2 : (Ctx.step m t2 (Ctx.step m t1 mem info).2 info).1 = [] := by
      rw [e1]
      dsimp only
      rw [Ctx.step_of_stepup m t2 { mem with lastStep := t1 } info hup2 hen,
        Ctx.maybe_step_blocked _ _ _ ?_]
      have hls : ({ mem with lastStep := t1 } : Mem).lastStep = t1 := rfl
      rw [hls]
      simp only [STEP]
      omega
    refine ⟨fun _ => hg, fun _ => e1, ?_, fun hb => hb.2 e2, fun _ => e2⟩
    rw [e1]
    exact hup2
  · have e1 : Ctx.step m t1 mem info = ([], mem) := by
      rw [h1, Ctx.maybe_step_blocked _ _ _ hg]
    refine ⟨fun h => ?_, fun h => absurd h hg, ?_, fun hb => ?_, fun h => absurd h hg⟩
    · rw [e1] at h
      exact absurd rfl h
    · rw [e1]
      exact hup
    · rw [e1] at hb
      exact hb.1 rfl

/-- C3 witness: gate last reset at 0, `MaybeStepUp` ticks at t = 11 s and
t = 15 s on a snapshot where the step-up body really writes: the first tick
executes the write, the second is blocked. -/
theorem C3_witness :
    ((Ctx.step Model.PinePhone 11 mem_session info_stepup).1 ≠ [] →
      STEP < 11 - mem_session.lastStep) ∧
    (STEP < 11 - mem_session.lastStep →
      Ctx.step Model.PinePhone 11 mem_session info_stepup =
        (Ctx.step_up Model.PinePhone info_stepup, { mem_session with lastStep := 11 })) ∧
    (Ctx.decide Model.PinePhone (Ctx.step Model.PinePhone 11 mem_session info_stepup).2
        info_stepup).1 = Action.MaybeStepUp ∧
    ¬((Ctx.step Model.PinePhone 11 mem_session info_stepup).1 ≠ [] ∧
      (Ctx.step Model.PinePhone 15 (Ctx.step Model.PinePhone 11 mem_session info_stepup).2
        info_stepup).1 ≠ []) ∧
    (STEP < 11 - mem_session.lastStep →
      (Ctx.step Model.PinePhone 15 (Ctx.step Model.PinePhone 11 mem_session info_stepup).2
        info_stepup).1 = []) :=
  C3_amended Model.PinePhone 11 15 mem_session info_stepup (by decide) rfl (by decide)

/-! ## C4 — offline recovery -/

/-- C4: on every tick, for both variants, if the boost converter is disabled
and has been disabled for more than `OFFLINE = 20` seconds, the tick issues a
force-online write and resets the rate-limit gate to `now`, regardless of
what action the decision engine emitted (the threshold is the same fixed
20 s constant for both variants). -/
theorem C4_offline_recovery (m : Model) (now : Nat) (mem : Mem) (info : Info)
    (hen : info.kbd.enabled = false) (hoff : OFFLINE < now - mem.lastOffline) :
    Write.online true ∈ (Ctx.step m now mem info).1 ∧
    (Ctx.step m now mem info).2.lastStep = now := by
  have ht := Ctx.decide_timers m mem info
  simp only [Ctx.step]
  rw [ht.2, hen]
  rw [if_pos ⟨rfl, hoff⟩]
  cases hact : (Ctx.decide m mem info).1 <;>
    simp [Ctx.maybe_step, STEP, Device.set_online]

/-- C4 witness: a PinePhonePro tick at t = 50 s with the boost off since
t = 0 forces it back online and resets the gate. -/
theorem C4_witness :
    Write.online true ∈ (Ctx.step Model.PinePhonePro 50 mem_idle info_offline).1 ∧
    (Ctx.step Model.PinePhonePro 50 mem_idle info_offline).2.lastStep = 50 :=
  C4_offline_recovery Model.PinePhonePro 50 mem_idle info_offline rfl (by decide)

end Kbpwrd
